import Mathlib

/-!
Shallow embedding of `admin_auto_filters_multi/filters.py`
(django-admin-autocomplete-filter, wfmexpert fork).

The repository defines a single Django admin changelist filter class
`AutocompleteFilter` plus a factory function `AutocompleteFilterFactory`.
The embedding below translates, from the source:

* the class-level configuration (`field_name`, `field_pk`, `multi_select`,
  `use_pk_exact`, `parameter_name`, `title`) as `FilterConfig`;
* the classmethods `get_query_parameter`, `get_parameter_name`, `get_title`,
  `check_field_name`;
* the request-time method `queryset` together with Django's helper
  `prepare_lookup_value` (from `django.contrib.admin.utils`) that it calls;
* the media-merging done by `_add_media`, together with Django's
  `Media.merge` list-merging algorithm that it relies on;
* the factory function `AutocompleteFilterFactory`, with Python keyword
  dictionaries embedded as association lists with insertion-order semantics.

Python strings are embedded as Lean `String`; the Python string operations
used by the source (`in`, `replace`, `split`, `endswith`, `lower`,
`title`) are modelled on `List Char` by structural recursion so that every
definition evaluates inside the kernel.  The models cover the ASCII letters,
which is all the source's suffix/delimiter handling touches.
-/

/-- Python `pattern in s` (substring containment), on character lists:
true iff `pat` is a prefix of some suffix of the list. -/
def charsContains (pat : List Char) : List Char → Bool
  | [] => pat.isPrefixOf ([] : List Char)
  | c :: cs => pat.isPrefixOf (c :: cs) || charsContains pat cs

/-- Python `pattern in s` for strings.  The source tests
`LOOKUP_SEP not in cls.field_name` where `LOOKUP_SEP = '__'`. -/
def strContains (s pattern : String) : Bool :=
  charsContains pattern.data s.data

/-- Python `s.endswith(suffix)`. -/
def strEndsWith (s suffix : String) : Bool :=
  suffix.data.isSuffixOf s.data

/-- Python `s.lower()` (ASCII). -/
def strLower (s : String) : String :=
  String.mk (s.data.map Char.toLower)

/-- Python `value.split(',')` on character lists: splits into the comma
separated groups; the empty input yields one empty group, as in Python. -/
def pySplitCommaChars : List Char → List (List Char)
  | [] => [[]]
  | c :: cs =>
    if c = ',' then [] :: pySplitCommaChars cs
    else
      match pySplitCommaChars cs with
      | [] => [[c]]
      | g :: gs => (c :: g) :: gs

/-- Python `value.split(',')`, as used by Django's `prepare_lookup_value`. -/
def pySplitComma (s : String) : List String :=
  (pySplitCommaChars s.data).map String.mk

/-- Strip `pat` from the front of a character list, returning the remainder
when it is a prefix. -/
def stripPrefixChars : List Char → List Char → Option (List Char)
  | [], rest => some rest
  | _ :: _, [] => none
  | p :: ps, c :: cs => if p = c then stripPrefixChars ps cs else none

/-- Python `s.replace(pat, repl)`: leftmost, non-overlapping replacement,
written with explicit fuel so the recursion is structural.  Each step
consumes at least one character, so `fuel = length of the input` suffices
for every non-empty pattern (the source only replaces `'__'` and `'_'`). -/
def pyReplaceChars (pat repl : List Char) : Nat → List Char → List Char
  | _, [] => []
  | 0, rest => rest
  | fuel + 1, c :: cs =>
    match stripPrefixChars pat (c :: cs) with
    | some rest => repl ++ pyReplaceChars pat repl fuel rest
    | none => c :: pyReplaceChars pat repl fuel cs

/-- Python `s.replace(pat, repl)` for strings. -/
def pyReplace (s pat repl : String) : String :=
  String.mk (pyReplaceChars pat.data repl.data s.data.length s.data)

/-- One pass of Python `s.title()`: the flag records whether the previous
character was cased (a letter), in which case the current letter is
lowercased rather than starting a new word. -/
def pyTitleChars : Bool → List Char → List Char
  | _, [] => []
  | prevCased, c :: cs =>
    if c.isAlpha then
      (if prevCased then c.toLower else c.toUpper) :: pyTitleChars true cs
    else
      c :: pyTitleChars false cs

/-- Python `s.title()` (ASCII): words start with an uppercase letter, the
remaining letters are lowercased, and any non-letter restarts a word. -/
def pyTitle (s : String) : String :=
  String.mk (pyTitleChars false s.data)

/-- Python truthiness of the filter's submitted value (`if value:` in
`AutocompleteFilter.queryset`): `None` and the empty string are falsy. -/
def pyTruthy : Option String → Bool
  | none => false
  | some s => s != ""

/-- The class-level configuration of an `AutocompleteFilter` subclass, with
the defaults from the class body of `filters.py` (lines 97-109):
`field_pk = 'pk'`, `multi_select = False`, `use_pk_exact = True`, and
`parameter_name` / `title` unset (`None`) unless overridden. -/
structure FilterConfig where
  field_name : String
  field_pk : String := "pk"
  multi_select : Bool := false
  use_pk_exact : Bool := true
  parameter_name : Option String := none
  title : Option String := none
deriving DecidableEq

/-- `AutocompleteFilter.get_query_parameter` (filters.py lines 165-179):
starts from `field_name` and appends the `'__{field_pk}__in'`,
`'__in'`, `'__{field_pk}__exact'` or empty suffix according to
`multi_select` and `use_pk_exact`. -/
def get_query_parameter (cfg : FilterConfig) : String :=
  let query_parameter := cfg.field_name
  if cfg.multi_select then
    if cfg.use_pk_exact then
      query_parameter ++ "__" ++ cfg.field_pk ++ "__in"
    else
      query_parameter ++ "__in"
  else
    if cfg.use_pk_exact then
      query_parameter ++ "__" ++ cfg.field_pk ++ "__exact"
    else
      query_parameter

/-- `AutocompleteFilter.get_parameter_name` (filters.py lines 150-163):
when `parameter_name` is unset, the default is `get_query_parameter()`
for a `field_name` without `LOOKUP_SEP = '__'` and the bare `field_name`
otherwise. -/
def get_parameter_name (cfg : FilterConfig) : String :=
  match cfg.parameter_name with
  | none =>
    if !(strContains cfg.field_name "__") then
      get_query_parameter cfg
    else
      cfg.field_name
  | some p => p

/-- `AutocompleteFilter.get_title` (filters.py lines 181-187): when `title`
is unset, the default is
`str(cls.field_name).replace('__', ' - ').replace('_', ' ').title()`. -/
def get_title (cfg : FilterConfig) : String :=
  match cfg.title with
  | none => pyTitle (pyReplace (pyReplace cfg.field_name "__" " - ") "_" " ")
  | some t => t

/-- A single quote character, used in the `ImproperlyConfigured` message. -/
def singleQuote : String :=
  String.singleton (Char.ofNat 39)

/-- `AutocompleteFilter.check_field_name` (filters.py lines 196-206):
raises `ImproperlyConfigured` naming the class when `field_name` is
missing (`None`) or the empty string.  The error side is embedded as
`Except.error` carrying the formatted message
`"The list filter '<cls>' does not specify a 'field_name'."`. -/
def check_field_name (field_name : Option String) (clsName : String) :
    Except String Unit :=
  if field_name = none ∨ field_name = some "" then
    Except.error ("The list filter " ++ singleQuote ++ clsName ++ singleQuote
      ++ " does not specify a " ++ singleQuote ++ "field_name" ++ singleQuote ++ ".")
  else
    Except.ok ()

/-- `AutocompleteFilter.__init__` (filters.py lines 126-145): the very first
statement runs `check_field_name`; only afterwards does the constructor
resolve the related model, build the widget and field, and merge media.
Those later stages are abstracted into `buildRest`, a computation that the
embedding only runs when the check passes — mirroring that a failed check
raises before any field resolution or widget construction happens. -/
def filter_init {α : Type} (field_name : Option String) (clsName : String)
    (buildRest : Unit → α) : Except String α :=
  match check_field_name field_name clsName with
  | Except.error e => Except.error e
  | Except.ok _ => Except.ok (buildRest ())

/-- The value shapes produced by Django's `prepare_lookup_value`
(`django.contrib.admin.utils`): the submitted string itself, the string
split on commas (for `__in` lookups), or a boolean (for `__isnull`). -/
inductive LookupValue where
  | str (s : String)
  | list (l : List String)
  | bool (b : Bool)
deriving DecidableEq

/-- Django's `prepare_lookup_value(key, value)` from
`django.contrib.admin.utils`, called by `AutocompleteFilter.queryset` and
`prepare_value` (filters.py lines 340-357):

    if key.endswith('__in'):
        value = value.split(',')
    elif key.endswith('__isnull'):
        value = value.lower() not in ('', 'false', '0')
    return value
-/
def prepare_lookup_value (key value : String) : LookupValue :=
  if strEndsWith key "__in" then
    LookupValue.list (pySplitComma value)
  else if strEndsWith key "__isnull" then
    LookupValue.bool (!(["", "false", "0"].contains (strLower value)))
  else
    LookupValue.str value

/-- A queryset, embedded as the ordered list of lookup key/value pairs that
have been applied to it; `filter(**{k: v})` returns a new queryset with one
more lookup appended and leaves its receiver untouched. -/
structure QuerySet where
  filters : List (String × LookupValue)
deriving DecidableEq

/-- `AutocompleteFilter.queryset` (filters.py lines 346-357):

    value = self.value()
    if value:
        query_parameter = self.get_query_parameter()
        prepared_value = prepare_lookup_value(query_parameter, value)
        return queryset.filter(**{query_parameter: prepared_value})
    else:
        return queryset

`value` is the submitted GET value: `None` when absent, otherwise a string.
-/
def queryset_method (cfg : FilterConfig) (value : Option String)
    (qs : QuerySet) : QuerySet :=
  if pyTruthy value then
    let query_parameter := get_query_parameter cfg
    let prepared_value := prepare_lookup_value query_parameter (value.getD "")
    { filters := qs.filters ++ [(query_parameter, prepared_value)] }
  else
    qs

/-- Modelled from the claim's words (for comparison with `get_title`, whose
definition comes from the source): "the field path with its delimiters
converted to spaces and the result title-cased", i.e. every underscore
becomes a space and the result is passed through Python `title()`. -/
def spec_default_title (field_name : String) : String :=
  pyTitle (pyReplace field_name "_" " ")

/-- Python `list.index(x)` wrapped in an option: the position of the first
occurrence of `x`, or `none` when absent (Python raises `ValueError`, which
`Media.merge` catches to trigger an insertion). -/
def listIndexOf : List String → String → Option Nat
  | [], _ => none
  | y :: ys, x => if y = x then some 0 else (listIndexOf ys x).map (· + 1)

/-- One step of Django's `Media.merge` loop over `reversed(list_2)`: the
state is the combined list and `last_insert_index`.  If `path` is already
present, only `last_insert_index` moves to its position; otherwise `path`
is inserted at `last_insert_index` (Python `list.insert` clamps an index
past the end, hence the `min`). -/
def mediaMergeStep (st : List String × Nat) (path : String) : List String × Nat :=
  match listIndexOf st.1 path with
  | none => (st.1.insertIdx (min st.2 st.1.length) path, st.2)
  | some idx => (st.1, idx)

/-- Django's `Media.merge(list_1, list_2)` (`django/forms/widgets.py`,
the pairwise algorithm of Django 2.0/2.1; later versions replace it by a
topological variant with the same dedup-and-keep-order contract):

    combined_list = list(list_1)
    last_insert_index = len(list_1)
    for path in reversed(list_2):
        try:
            index = combined_list.index(path)
        except ValueError:
            combined_list.insert(last_insert_index, path)
        else:
            last_insert_index = index
    return combined_list
-/
def mediaMerge (list1 list2 : List String) : List String :=
  (list2.reverse.foldl mediaMergeStep (list1, list1.length)).1

/-- The `js` manifest declared by `AutocompleteFilter.Media`
(filters.py lines 111-124). -/
def autocomplete_filter_media_js : List String :=
  ["admin/js/jquery.init.js",
   "django-admin-autocomplete-filter/js/autocomplete_filter_qs.js"]

/-- `AutocompleteFilter._add_media` (filters.py lines 317-330): the media
written back onto the admin page class is

    media = _get_media(model_admin) + widget.media
            + _get_media(AutocompleteFilter) + _get_media(self)

i.e. the pairwise merge, in order, of the admin page's, the widget's, the
filter class's and the filter instance's manifests (`Media.__add__` merges
each asset list pairwise; shown here for the `js` list, the `css` lists
merge per medium with the same function). -/
def add_media (adminJs widgetJs filterClassJs instanceJs : List String) : List String :=
  mediaMerge (mediaMerge (mediaMerge adminJs widgetJs) filterClassJs) instanceJs

/-- The keys of a Python keyword dictionary, embedded as an association
list in insertion order. -/
def dictKeys {α : Type} (d : List (String × α)) : List String :=
  d.map Prod.fst

/-- Python `d.get(k)` / `d[k]`: the value of the first entry with key `k`. -/
def dictGet {α : Type} (d : List (String × α)) (k : String) : Option α :=
  (d.find? (fun kv => kv.1 == k)).map Prod.snd

/-- Python `d.setdefault(k, v)`: unchanged when `k` is present, otherwise
the pair is appended (insertion order). -/
def dictSetdefault {α : Type} (d : List (String × α)) (k : String) (v : α) :
    List (String × α) :=
  if (dictKeys d).contains k then d else d ++ [(k, v)]

/-- Python `d.pop(k)`: the dictionary without the entry keyed `k`. -/
def dictPop {α : Type} (d : List (String × α)) (k : String) : List (String × α) :=
  d.filter (fun kv => kv.1 != k)

/-- Python `{**a, **b}`: entries of `a` in order, with values overridden by
`b` where the key repeats, followed by the entries of `b` with new keys. -/
def dictMerge {α : Type} (a b : List (String × α)) : List (String × α) :=
  a.map (fun kv => (kv.1, (dictGet b kv.1).getD kv.2))
    ++ b.filter (fun kv => !((dictKeys a).contains kv.1))

/-- The recognized configuration option names, computed in the source
(filters.py lines 389-394) as the non-callable, non-dunder entries of
`dir(AutocompleteFilter)` minus `'title'` and `'field_name'`.  Enumerated
from the class body of `AutocompleteFilter` (lines 97-109: `field_pk`,
`form_field`, `form_widget`, `is_placeholder_title`, `label_by`,
`multi_select`, `template`, `use_pk_exact`, `view_name`, `widget_attrs`;
the nested `Media` class is callable and so excluded) and from its bases:
`parameter_name` from `SimpleListFilter` (`title` and `template` from
`ListFilter` are respectively excluded and already listed). -/
def validAttrs : List String :=
  ["field_pk", "form_field", "form_widget", "is_placeholder_title", "label_by",
   "multi_select", "parameter_name", "template", "use_pk_exact", "view_name",
   "widget_attrs"]

/-- `AutocompleteFilterFactory(title, field_name, **kwargs)`
(filters.py lines 379-410):

    diff = set(kwargs.keys()) - set(attrs)
    if 'viewname' in kwargs.keys():
        warnings.warn('The viewname argument is deprecated. ...')
        kwargs.setdefault('view_name', kwargs['viewname'])
        kwargs.pop('viewname')
    elif diff:
        raise ValueError('Invalid argument(s): ' + str(diff))
    base = {'title': title, 'field_name': field_name}
    return AutocompleteFilterMeta(..., {**base, **kwargs})

The result is the number of deprecation warnings emitted paired with either
the offending key set (the `ValueError` payload, which the source formats
into the message) or the generated class's attribute dictionary.  `diff`
is written inline in both places it is used.  Keyword values stay abstract
in `α`. -/
def AutocompleteFilterFactory {α : Type} (title field_name : α)
    (kwargs : List (String × α)) :
    Nat × Except (List String) (List (String × α)) :=
  match kwargs.find? (fun kv => kv.1 == "viewname") with
  | some kv =>
    (1, Except.ok (dictMerge [("title", title), ("field_name", field_name)]
        (dictPop (dictSetdefault kwargs "view_name" kv.2) "viewname")))
  | none =>
    if ((dictKeys kwargs).filter (fun k => !(validAttrs.contains k))).isEmpty then
      (0, Except.ok (dictMerge [("title", title), ("field_name", field_name)] kwargs))
    else
      (0, Except.error ((dictKeys kwargs).filter (fun k => !(validAttrs.contains k))))

/-- The attribute dictionary of the class a factory call produced (the
empty dictionary when the call raised instead). -/
def generated_class {α : Type}
    (r : Nat × Except (List String) (List (String × α))) : List (String × α) :=
  r.2.toOption.getD []

/-! ## Helper lemmas -/

theorem contains_eq_true_iff {l : List String} {k : String} :
    l.contains k = true ↔ k ∈ l := by
  rw [List.contains_iff_exists_mem_beq]
  constructor
  · rintro ⟨x, hx, hbeq⟩
    rw [beq_iff_eq] at hbeq
    rw [hbeq]
    exact hx
  · intro h
    exact ⟨k, h, beq_iff_eq.mpr rfl⟩

theorem find?_append_none {β : Type} (l1 l2 : List β) (p : β → Bool)
    (h : l1.find? p = none) : (l1 ++ l2).find? p = l2.find? p := by
  induction l1 with
  | nil => simp
  | cons x xs ih =>
    cases hpa : p x with
    | true => simp [List.find?, hpa] at h
    | false =>
      simp only [List.find?, hpa, List.cons_append] at h ⊢
      exact ih h

theorem find?_filter_of_imp {β : Type} (l : List β) (p q : β → Bool)
    (h : ∀ x ∈ l, p x = true → q x = true) :
    (l.filter q).find? p = l.find? p := by
  induction l with
  | nil => simp
  | cons x xs ih =>
    have htail : ∀ y ∈ xs, p y = true → q y = true :=
      fun y hy => h y (List.mem_cons_of_mem _ hy)
    cases hqx : q x with
    | true =>
      rw [List.filter_cons_of_pos hqx]
      cases hpx : p x with
      | true => simp [List.find?, hpx]
      | false => simp only [List.find?, hpx]; exact ih htail
    | false =>
      rw [List.filter_cons_of_neg (by simp [hqx])]
      cases hpx : p x with
      | true => exact absurd (h x (List.mem_cons_self _ _) hpx) (by simp [hqx])
      | false => simp only [List.find?, hpx]; exact ih htail

theorem mem_dictKeys {α : Type} {d : List (String × α)} {k : String} :
    k ∈ dictKeys d ↔ ∃ kv ∈ d, kv.1 = k := by
  simp [dictKeys, List.mem_map]

theorem mem_dictKeys_pop {α : Type} {d : List (String × α)} {k k0 : String} :
    k ∈ dictKeys (dictPop d k0) ↔ k ∈ dictKeys d ∧ k ≠ k0 := by
  simp only [dictPop, mem_dictKeys, List.mem_filter, bne_iff_ne]
  constructor
  · rintro ⟨kv, ⟨hkv, hne⟩, rfl⟩
    exact ⟨⟨kv, hkv, rfl⟩, hne⟩
  · rintro ⟨⟨kv, hkv, rfl⟩, hne⟩
    exact ⟨kv, ⟨hkv, hne⟩, rfl⟩

theorem mem_dictKeys_setdefault {α : Type} {d : List (String × α)}
    {k k0 : String} {v : α} :
    k ∈ dictKeys (dictSetdefault d k0 v) ↔ k ∈ dictKeys d ∨ k = k0 := by
  unfold dictSetdefault
  by_cases hc : (dictKeys d).contains k0 = true
  · rw [if_pos hc]
    constructor
    · exact Or.inl
    · rintro (h | rfl)
      · exact h
      · exact contains_eq_true_iff.mp hc
  · rw [if_neg hc]
    simp only [dictKeys, List.map_append, List.mem_append, List.map_cons,
      List.map_nil, List.mem_singleton]

theorem mem_dictKeys_merge {α : Type} {a b : List (String × α)} {k : String} :
    k ∈ dictKeys (dictMerge a b) ↔ k ∈ dictKeys a ∨ k ∈ dictKeys b := by
  constructor
  · intro h
    rw [mem_dictKeys] at h
    obtain ⟨kv, hkv, rfl⟩ := h
    rw [dictMerge, List.mem_append] at hkv
    rcases hkv with h | h
    · rw [List.mem_map] at h
      obtain ⟨kv0, hkv0, rfl⟩ := h
      exact Or.inl (mem_dictKeys.mpr ⟨kv0, hkv0, rfl⟩)
    · rw [List.mem_filter] at h
      exact Or.inr (mem_dictKeys.mpr ⟨kv, h.1, rfl⟩)
  · intro h
    by_cases ha : k ∈ dictKeys a
    · rw [mem_dictKeys] at ha
      obtain ⟨kv, hkv, rfl⟩ := ha
      rw [mem_dictKeys]
      refine ⟨(kv.1, (dictGet b kv.1).getD kv.2), ?_, rfl⟩
      rw [dictMerge, List.mem_append]
      exact Or.inl (List.mem_map.mpr ⟨kv, hkv, rfl⟩)
    · rcases h with h | h
      · exact absurd h ha
      · rw [mem_dictKeys] at h
        obtain ⟨kv, hkv, hk⟩ := h
        rw [mem_dictKeys]
        refine ⟨kv, ?_, hk⟩
        rw [dictMerge, List.mem_append]
        right
        rw [List.mem_filter]
        refine ⟨hkv, ?_⟩
        have hc : (dictKeys a).contains kv.1 = false := by
          cases hx : (dictKeys a).contains kv.1 with
          | true =>
            rw [contains_eq_true_iff, hk] at hx
            exact absurd hx ha
          | false => rfl
        simp only [Bool.not_eq_true']
        exact hc

theorem dictGet_pop_ne {α : Type} (d : List (String × α)) (k k0 : String)
    (h : k ≠ k0) : dictGet (dictPop d k0) k = dictGet d k := by
  unfold dictGet dictPop
  rw [find?_filter_of_imp]
  intro kv _ hp
  rw [beq_iff_eq] at hp
  rw [bne_iff_ne, hp]
  exact h

theorem dictSetdefault_of_mem {α : Type} (d : List (String × α)) (k : String)
    (v : α) (h : k ∈ dictKeys d) : dictSetdefault d k v = d := by
  unfold dictSetdefault
  rw [if_pos (contains_eq_true_iff.mpr h)]

theorem dictGet_merge_of_not_mem_left {α : Type} (a b : List (String × α))
    (k : String) (h : k ∉ dictKeys a) :
    dictGet (dictMerge a b) k = dictGet b k := by
  unfold dictGet dictMerge
  rw [find?_append_none]
  · rw [find?_filter_of_imp]
    intro kv _ hp
    rw [beq_iff_eq] at hp
    have hc : (dictKeys a).contains kv.1 = false := by
      cases hx : (dictKeys a).contains kv.1 with
      | true => exact absurd (hp ▸ contains_eq_true_iff.mp hx) h
      | false => rfl
    rw [hc]
    rfl
  · rw [List.find?_eq_none]
    intro x hx
    rw [List.mem_map] at hx
    obtain ⟨kv, hkv, rfl⟩ := hx
    intro hbeq
    rw [beq_iff_eq] at hbeq
    exact h (mem_dictKeys.mpr ⟨kv, hkv, hbeq⟩)

theorem mem_of_dictGet_eq_some {α : Type} {d : List (String × α)} {k : String}
    {w : α} (h : dictGet d k = some w) : k ∈ dictKeys d := by
  unfold dictGet at h
  cases hfind : d.find? (fun kv => kv.1 == k) with
  | none => rw [hfind] at h; exact absurd h (by simp)
  | some kv =>
    have hmem := List.mem_of_find?_eq_some hfind
    have hbeq := List.find?_some hfind
    rw [beq_iff_eq] at hbeq
    exact mem_dictKeys.mpr ⟨kv, hmem, hbeq⟩

theorem listIndexOf_eq_none {l : List String} {x : String} :
    listIndexOf l x = none ↔ x ∉ l := by
  induction l with
  | nil => simp [listIndexOf]
  | cons y ys ih =>
    by_cases h : y = x
    · simp [listIndexOf, h]
    · simp only [listIndexOf, if_neg h, Option.map_eq_none', ih,
        List.mem_cons]
      constructor
      · intro hm
        rintro (rfl | hmem)
        · exact h rfl
        · exact hm hmem
      · intro hm hmem
        exact hm (Or.inr hmem)

theorem nodup_insertIdx {α : Type} {x : α} :
    ∀ {n : Nat} {l : List α}, x ∉ l → l.Nodup → n ≤ l.length →
      (List.insertIdx n x l).Nodup
  | 0, l, hx, hl, _ => by
    rw [List.insertIdx_zero]
    exact List.nodup_cons.mpr ⟨hx, hl⟩
  | n + 1, [], _, _, _ => by
    rw [List.insertIdx_succ_nil]
    exact List.nodup_nil
  | n + 1, hd :: tl, hx, hl, h => by
    rw [List.insertIdx_succ_cons]
    obtain ⟨h1, h2⟩ := List.nodup_cons.mp hl
    have hlen : n ≤ tl.length := Nat.le_of_succ_le_succ h
    refine List.nodup_cons.mpr ⟨?_, nodup_insertIdx
      (fun hm => hx (List.mem_cons_of_mem _ hm)) h2 hlen⟩
    intro hm
    rcases (List.mem_insertIdx hlen).mp hm with h3 | h3
    · exact hx (by rw [← h3]; exact List.mem_cons_self _ _)
    · exact h1 h3

theorem toFinset_insertIdx {x : String} {n : Nat} {l : List String}
    (h : n ≤ l.length) :
    (List.insertIdx n x l).toFinset = insert x l.toFinset := by
  ext y
  simp [List.mem_toFinset, List.mem_insertIdx h]

theorem mediaMerge_fold_spec (l2r : List String) :
    ∀ st : List String × Nat, st.1.Nodup →
      ((l2r.foldl mediaMergeStep st).1.Nodup
        ∧ (l2r.foldl mediaMergeStep st).1.toFinset = st.1.toFinset ∪ l2r.toFinset) := by
  induction l2r with
  | nil =>
    intro st h
    exact ⟨h, by simp⟩
  | cons x xs ih =>
    intro st h
    rw [List.foldl_cons]
    cases hidx : listIndexOf st.1 x with
    | none =>
      have hx : x ∉ st.1 := listIndexOf_eq_none.mp hidx
      have hmin : min st.2 st.1.length ≤ st.1.length := Nat.min_le_right _ _
      have hnd : (List.insertIdx (min st.2 st.1.length) x st.1).Nodup :=
        nodup_insertIdx hx h hmin
      have hstep : mediaMergeStep st x
          = (List.insertIdx (min st.2 st.1.length) x st.1, st.2) := by
        simp [mediaMergeStep, hidx]
      rw [hstep]
      obtain ⟨h1, h2⟩ := ih (List.insertIdx (min st.2 st.1.length) x st.1, st.2) hnd
      refine ⟨h1, ?_⟩
      rw [h2, toFinset_insertIdx hmin, List.toFinset_cons,
        Finset.insert_union, Finset.union_insert]
    | some idx =>
      have hx : x ∈ st.1 := by
        by_contra hxm
        rw [← listIndexOf_eq_none] at hxm
        rw [hidx] at hxm
        exact Option.noConfusion hxm
      have hstep : mediaMergeStep st x = (st.1, idx) := by
        simp [mediaMergeStep, hidx]
      rw [hstep]
      obtain ⟨h1, h2⟩ := ih (st.1, idx) h
      refine ⟨h1, ?_⟩
      rw [h2, List.toFinset_cons, Finset.union_insert]
      exact (Finset.insert_eq_self.mpr
        (Finset.mem_union_left _ (List.mem_toFinset.mpr hx))).symm

theorem mediaMerge_nodup (l1 l2 : List String) (h : l1.Nodup) :
    (mediaMerge l1 l2).Nodup :=
  (mediaMerge_fold_spec l2.reverse (l1, l1.length) h).1

theorem mediaMerge_toFinset (l1 l2 : List String) (h : l1.Nodup) :
    (mediaMerge l1 l2).toFinset = l1.toFinset ∪ l2.toFinset := by
  have hspec := (mediaMerge_fold_spec l2.reverse (l1, l1.length) h).2
  unfold mediaMerge
  rw [hspec, List.toFinset_reverse]

/-! ## Claim theorems -/

/-- Claim C1: for a filter class whose `field_name` contains no relation
separator `'__'` and whose `parameter_name` is not explicitly set, the
computed default query parameter is `field_name + '__' + field_pk + '__in'`
when `multi_select` and `use_pk_exact` both hold, `field_name + '__in'`
when only `multi_select` holds, `field_name + '__' + field_pk + '__exact'`
when only `use_pk_exact` holds, and the unchanged `field_name` when
neither holds. -/
theorem default_query_parameter_single_hop (cfg : FilterConfig)
    (hsep : strContains cfg.field_name "__" = false)
    (hparam : cfg.parameter_name = none) :
    get_parameter_name cfg =
      if cfg.multi_select then
        if cfg.use_pk_exact then cfg.field_name ++ "__" ++ cfg.field_pk ++ "__in"
        else cfg.field_name ++ "__in"
      else
        if cfg.use_pk_exact then cfg.field_name ++ "__" ++ cfg.field_pk ++ "__exact"
        else cfg.field_name := by
  simp only [get_parameter_name, get_query_parameter, hparam, hsep,
    Bool.not_false, if_true]

/-- Witness for C1 at `field_name = "author"`, multi-select with exact
primary keys: the default query parameter is `author__pk__in`. -/
theorem default_query_parameter_single_hop_witness :
    strContains "author" "__" = false
    ∧ ({ field_name := "author", multi_select := true } : FilterConfig).parameter_name = none
    ∧ get_parameter_name { field_name := "author", multi_select := true }
        = "author__pk__in" := by
  refine ⟨by decide, rfl, ?_⟩
  have h := default_query_parameter_single_hop
    { field_name := "author", multi_select := true } (by decide) rfl
  rw [h]
  rfl

/-- Claim C2: for a filter class whose `field_name` contains the relation
separator `'__'` and whose `parameter_name` is not explicitly set, the
computed default query parameter is `field_name` itself, with no suffix,
whatever `multi_select` and `use_pk_exact` are. -/
theorem default_parameter_name_multi_hop (cfg : FilterConfig)
    (hsep : strContains cfg.field_name "__" = true)
    (hparam : cfg.parameter_name = none) :
    get_parameter_name cfg = cfg.field_name := by
  simp only [get_parameter_name, hparam, hsep, Bool.not_true, if_neg]
  simp

/-- Witness for C2 at the dotted path `book__author` with the multi-select
flag set: the parameter stays `book__author`. -/
theorem default_parameter_name_multi_hop_witness :
    strContains "book__author" "__" = true
    ∧ ({ field_name := "book__author", multi_select := true } : FilterConfig).parameter_name = none
    ∧ get_parameter_name { field_name := "book__author", multi_select := true }
        = "book__author" :=
  ⟨by decide, rfl,
    default_parameter_name_multi_hop
      { field_name := "book__author", multi_select := true } (by decide) rfl⟩

/-- Counterexample to claim C3 as stated: in multi-select mode the computed
query parameter ends in `'__in'`, so `queryset` filters with the submitted
value split on commas — a list, not the submitted string itself. -/
theorem queryset_lookup_value_cex :
    queryset_method { field_name := "author", multi_select := true }
        (some "1,2") { filters := [] }
      = { filters := [("author__pk__in", LookupValue.list ["1", "2"])] }
    ∧ LookupValue.list ["1", "2"] ≠ LookupValue.str "1,2" :=
  ⟨by decide, by decide⟩

/-- Claim C3 (amended): with a present (non-empty) value, `queryset` returns
the input result set extended by exactly one lookup whose key is the
computed query parameter and whose value is the submitted value as prepared
by `prepare_lookup_value` — the string split on commas when the parameter
ends in `'__in'`, a boolean when it ends in `'__isnull'`, and the submitted
string unchanged otherwise; the input result set is not modified. -/
theorem queryset_present_value (cfg : FilterConfig) (v : String)
    (qs : QuerySet) (h : v ≠ "") :
    (queryset_method cfg (some v) qs).filters
      = qs.filters ++ [(get_query_parameter cfg,
          prepare_lookup_value (get_query_parameter cfg) v)]
    ∧ (strEndsWith (get_query_parameter cfg) "__in" = false →
        strEndsWith (get_query_parameter cfg) "__isnull" = false →
        prepare_lookup_value (get_query_parameter cfg) v = LookupValue.str v) := by
  constructor
  · have ht : pyTruthy (some v) = true := by
      simp only [pyTruthy]
      exact bne_iff_ne.mpr h
    simp [queryset_method, ht]
  · intro h1 h2
    simp [prepare_lookup_value, h1, h2]

/-- Witness for C3 (amended) in default single-select mode at value `"5"`:
the lookup key is `author__pk__exact` and the value stays the string. -/
theorem queryset_present_value_witness :
    ("5" : String) ≠ ""
    ∧ ((queryset_method { field_name := "author" } (some "5") { filters := [] }).filters
        = [] ++ [(get_query_parameter { field_name := "author" },
            prepare_lookup_value (get_query_parameter { field_name := "author" }) "5")]
      ∧ (strEndsWith (get_query_parameter { field_name := "author" }) "__in" = false →
          strEndsWith (get_query_parameter { field_name := "author" }) "__isnull" = false →
          prepare_lookup_value (get_query_parameter { field_name := "author" }) "5"
            = LookupValue.str "5")) :=
  ⟨by decide, queryset_present_value { field_name := "author" } "5" { filters := [] } (by decide)⟩

/-- Claim C4: with an absent (`None`) or empty submitted value, `queryset`
returns the original result set unchanged. -/
theorem queryset_empty_value (cfg : FilterConfig) (value : Option String)
    (qs : QuerySet) (h : value = none ∨ value = some "") :
    queryset_method cfg value qs = qs := by
  rcases h with h | h <;> subst h <;> simp [queryset_method, pyTruthy]

/-- Witness for C4 at the empty submitted value with a non-trivial input
result set. -/
theorem queryset_empty_value_witness :
    (some "" = none ∨ (some "" : Option String) = some "")
    ∧ queryset_method { field_name := "author" } (some "")
        { filters := [("x", LookupValue.str "y")] }
      = { filters := [("x", LookupValue.str "y")] } :=
  ⟨Or.inr rfl,
    queryset_empty_value { field_name := "author" } (some "")
      { filters := [("x", LookupValue.str "y")] } (Or.inr rfl)⟩

/-- Claim C7: constructing a filter whose `field_name` is missing (`None`)
or empty raises `ImproperlyConfigured` naming the class, before any field
resolution or widget construction happens (the `buildRest` stages are
never consulted on the error path); for every non-empty `field_name` the
construction passes this check and proceeds to the later stages. -/
theorem init_checks_field_name {α : Type} (field_name : Option String)
    (clsName : String) (buildRest : Unit → α) :
    filter_init field_name clsName buildRest
      = if field_name = none ∨ field_name = some "" then
          Except.error ("The list filter " ++ singleQuote ++ clsName ++ singleQuote
            ++ " does not specify a " ++ singleQuote ++ "field_name" ++ singleQuote ++ ".")
        else
          Except.ok (buildRest ()) := by
  unfold filter_init check_field_name
  by_cases h : field_name = none ∨ field_name = some ""
  · rw [if_pos h, if_pos h]
  · rw [if_neg h, if_neg h]

/-- Claim C8: the `js` manifest `_add_media` writes back to the admin page
class is the pairwise merge, in order, of the admin page's, the widget's,
the filter class's and the filter instance's manifests; provided the page's
own manifest lists each path once, the merged manifest has no duplicate
entries and carries exactly the union of the four sources' asset paths. -/
theorem add_media_merged_assets (adminJs widgetJs filterClassJs instanceJs : List String)
    (ha : adminJs.Nodup) :
    (add_media adminJs widgetJs filterClassJs instanceJs).Nodup
    ∧ (add_media adminJs widgetJs filterClassJs instanceJs).toFinset
        = (adminJs ++ widgetJs ++ filterClassJs ++ instanceJs).toFinset := by
  unfold add_media
  have h1 := mediaMerge_nodup adminJs widgetJs ha
  have h2 := mediaMerge_nodup _ filterClassJs h1
  have h3 := mediaMerge_nodup _ instanceJs h2
  refine ⟨h3, ?_⟩
  rw [mediaMerge_toFinset _ _ h2, mediaMerge_toFinset _ _ h1,
    mediaMerge_toFinset _ _ ha]
  simp [List.toFinset_append]

/-- Witness for C8: an admin page already loading `jquery.init.js` merged
with a widget manifest and this filter's own `Media.js` declaration, which
both repeat that path. -/
theorem add_media_merged_assets_witness :
    (["admin/js/vendor/select2/select2.full.js", "admin/js/jquery.init.js"] : List String).Nodup
    ∧ ((add_media ["admin/js/vendor/select2/select2.full.js", "admin/js/jquery.init.js"]
          ["admin/js/jquery.init.js", "admin/js/autocomplete.js"]
          autocomplete_filter_media_js []).Nodup
      ∧ (add_media ["admin/js/vendor/select2/select2.full.js", "admin/js/jquery.init.js"]
          ["admin/js/jquery.init.js", "admin/js/autocomplete.js"]
          autocomplete_filter_media_js []).toFinset
        = (["admin/js/vendor/select2/select2.full.js", "admin/js/jquery.init.js"]
            ++ ["admin/js/jquery.init.js", "admin/js/autocomplete.js"]
            ++ autocomplete_filter_media_js ++ []).toFinset) :=
  ⟨by decide,
    add_media_merged_assets
      ["admin/js/vendor/select2/select2.full.js", "admin/js/jquery.init.js"]
      ["admin/js/jquery.init.js", "admin/js/autocomplete.js"]
      autocomplete_filter_media_js [] (by decide)⟩

/-- Counterexample to claim C9 as stated: for the field path
`author__first_name` the computed default title is `"Author - First Name"`
— the relation separator `'__'` becomes `' - '`, with a dash — whereas
converting every delimiter to a space and title-casing would give
`"Author  First Name"`. -/
theorem default_title_cex :
    get_title { field_name := "author__first_name" } = "Author - First Name"
    ∧ spec_default_title "author__first_name" = "Author  First Name"
    ∧ ("Author - First Name" : String) ≠ "Author  First Name" :=
  ⟨by decide, by decide, by decide⟩

/-- Claim C9 (amended): for a filter class whose `title` is not explicitly
set, the computed default display title is the field path with `'__'`
replaced by `' - '`, the remaining underscores replaced by spaces, and the
result title-cased. -/
theorem default_title_computation (cfg : FilterConfig) (h : cfg.title = none) :
    get_title cfg
      = pyTitle (pyReplace (pyReplace cfg.field_name "__" " - ") "_" " ") := by
  simp [get_title, h]

/-- Witness for C9 (amended) at the field path `author__first_name`, whose
default title evaluates to `"Author - First Name"`. -/
theorem default_title_computation_witness :
    ({ field_name := "author__first_name" } : FilterConfig).title = none
    ∧ get_title { field_name := "author__first_name" }
        = pyTitle (pyReplace (pyReplace "author__first_name" "__" " - ") "_" " ")
    ∧ pyTitle (pyReplace (pyReplace "author__first_name" "__" " - ") "_" " ")
        = "Author - First Name" :=
  ⟨rfl, default_title_computation { field_name := "author__first_name" } rfl, by decide⟩

/-- Counterexample to claim C5 as stated: a factory call whose keyword set
contains the unrecognized name `bogus` raises no value error when the
deprecated `viewname` key is also present — the branch that checks the
invalid-key set is skipped and a class is generated with `bogus` baked in
unchecked. -/
theorem factory_invalid_kwargs_cex :
    AutocompleteFilterFactory "t" "f" [("viewname", "v"), ("bogus", "x")]
      = (1, Except.ok [("title", "t"), ("field_name", "f"),
          ("bogus", "x"), ("view_name", "v")]) := by
  rfl

/-- Claim C5 (amended): provided the deprecated key `viewname` is not among
the keyword arguments, a factory call whose keyword set contains at least
one unrecognized configuration option raises a value error whose payload is
exactly the list of offending keys (every unrecognized keyword appears in
it), and no filter class is produced. -/
theorem factory_invalid_kwargs_error {α : Type} (title field_name : α)
    (kwargs : List (String × α))
    (h1 : "viewname" ∉ dictKeys kwargs)
    (h2 : (dictKeys kwargs).filter (fun k => !(validAttrs.contains k)) ≠ []) :
    AutocompleteFilterFactory title field_name kwargs
      = (0, Except.error ((dictKeys kwargs).filter (fun k => !(validAttrs.contains k))))
    ∧ ((dictKeys kwargs).all (fun k => validAttrs.contains k
        || ((dictKeys kwargs).filter (fun k2 => !(validAttrs.contains k2))).contains k))
      = true := by
  constructor
  · have hfind : kwargs.find? (fun kv => kv.1 == "viewname") = none := by
      rw [List.find?_eq_none]
      intro kv hkv hbeq
      rw [beq_iff_eq] at hbeq
      exact h1 (mem_dictKeys.mpr ⟨kv, hkv, hbeq⟩)
    have hempty : ((dictKeys kwargs).filter (fun k => !(validAttrs.contains k))).isEmpty
        = false := by
      cases he : ((dictKeys kwargs).filter (fun k => !(validAttrs.contains k))).isEmpty with
      | true => exact absurd (List.isEmpty_iff.mp he) h2
      | false => rfl
    unfold AutocompleteFilterFactory
    rw [hfind]
    rw [if_neg (by rw [hempty]; exact Bool.false_ne_true)]
  · rw [List.all_eq_true]
    intro k hk
    rw [Bool.or_eq_true]
    cases hv : validAttrs.contains k with
    | true => exact Or.inl rfl
    | false =>
      right
      rw [contains_eq_true_iff, List.mem_filter]
      exact ⟨hk, by rw [hv]; rfl⟩

/-- Witness for C5 (amended): the single unrecognized keyword `bogus`
(without `viewname`) makes the factory report exactly `["bogus"]`. -/
theorem factory_invalid_kwargs_error_witness :
    ("viewname" ∉ dictKeys [("bogus", "x")])
    ∧ (dictKeys [("bogus", "x")]).filter (fun k => !(validAttrs.contains k)) ≠ []
    ∧ (AutocompleteFilterFactory "t" "f" [("bogus", "x")]
        = (0, Except.error ((dictKeys [("bogus", "x")]).filter
            (fun k => !(validAttrs.contains k))))
      ∧ ((dictKeys [("bogus", "x")]).all (fun k => validAttrs.contains k
          || ((dictKeys [("bogus", "x")]).filter
              (fun k2 => !(validAttrs.contains k2))).contains k)) = true) :=
  ⟨by decide, by decide,
    factory_invalid_kwargs_error "t" "f" [("bogus", "x")] (by decide) (by decide)⟩

/-- Claim C6: a factory call with the deprecated alias `viewname = v`
generates a class with exactly the same baked-in attribute dictionary as a
call with `view_name = v` (in particular `view_name = v`), the aliased call
emits exactly one deprecation warning, and the replacement call emits
none. -/
theorem factory_viewname_alias_equiv {α : Type} (title field_name v : α) :
    AutocompleteFilterFactory title field_name [("viewname", v)]
      = (1, (AutocompleteFilterFactory title field_name [("view_name", v)]).2)
    ∧ (AutocompleteFilterFactory title field_name [("view_name", v)]).1 = 0 :=
  ⟨rfl, rfl⟩

/-- Claim C10: a factory call whose keywords include the deprecated key
`viewname` never raises a value error — every other keyword, recognized or
not, is baked into the generated class unchecked — the generated class has
no `viewname` attribute, and when `view_name` is also supplied its value
wins (the `viewname` value is discarded). -/
theorem factory_viewname_unchecked {α : Type} (title field_name : α)
    (kwargs : List (String × α)) (h1 : "viewname" ∈ dictKeys kwargs) :
    (AutocompleteFilterFactory title field_name kwargs).2.isOk = true
    ∧ "viewname" ∉ dictKeys (generated_class (AutocompleteFilterFactory title field_name kwargs))
    ∧ ((dictKeys kwargs).all (fun k => k == "viewname"
        || (dictKeys (generated_class (AutocompleteFilterFactory title field_name kwargs))).contains k))
      = true
    ∧ ((dictGet kwargs "view_name").isSome = true →
        dictGet (generated_class (AutocompleteFilterFactory title field_name kwargs)) "view_name"
          = dictGet kwargs "view_name") := by
  have hex : ∃ kv ∈ kwargs, (fun kv : String × α => kv.1 == "viewname") kv = true := by
    obtain ⟨kv, hkv, hfst⟩ := mem_dictKeys.mp h1
    exact ⟨kv, hkv, beq_iff_eq.mpr hfst⟩
  obtain ⟨kv0, hfind⟩ := Option.isSome_iff_exists.mp (List.find?_isSome.mpr hex)
  have hfact : AutocompleteFilterFactory title field_name kwargs
      = (1, Except.ok (dictMerge [("title", title), ("field_name", field_name)]
          (dictPop (dictSetdefault kwargs "view_name" kv0.2) "viewname"))) := by
    unfold AutocompleteFilterFactory
    rw [hfind]
  have hcls : generated_class (AutocompleteFilterFactory title field_name kwargs)
      = dictMerge [("title", title), ("field_name", field_name)]
          (dictPop (dictSetdefault kwargs "view_name" kv0.2) "viewname") := by
    rw [hfact]
    rfl
  refine ⟨by rw [hfact]; rfl, ?_, ?_, ?_⟩
  · rw [hcls]
    intro hmem
    rcases mem_dictKeys_merge.mp hmem with h | h
    · obtain ⟨kv, hkv, hfst⟩ := mem_dictKeys.mp h
      rcases List.mem_cons.mp hkv with rfl | hkv2
      · have hfst2 : ("title" : String) = "viewname" := hfst
        exact absurd hfst2 (by decide)
      · rw [List.mem_singleton] at hkv2
        rw [hkv2] at hfst
        have hfst2 : ("field_name" : String) = "viewname" := hfst
        exact absurd hfst2 (by decide)
    · exact (mem_dictKeys_pop.mp h).2 rfl
  · rw [List.all_eq_true]
    intro k hk
    rw [Bool.or_eq_true]
    by_cases hkv : k = "viewname"
    · exact Or.inl (beq_iff_eq.mpr hkv)
    · right
      rw [contains_eq_true_iff, hcls, mem_dictKeys_merge]
      right
      rw [mem_dictKeys_pop]
      exact ⟨mem_dictKeys_setdefault.mpr (Or.inl hk), hkv⟩
  · intro hsome
    obtain ⟨w, hw⟩ := Option.isSome_iff_exists.mp hsome
    have hvm : "view_name" ∈ dictKeys kwargs := mem_of_dictGet_eq_some hw
    rw [hcls, dictSetdefault_of_mem kwargs "view_name" kv0.2 hvm,
      dictGet_merge_of_not_mem_left, dictGet_pop_ne]
    · decide
    · intro hmem
      obtain ⟨kv, hkv, hfst⟩ := mem_dictKeys.mp hmem
      rcases List.mem_cons.mp hkv with rfl | hkv2
      · have hfst2 : ("title" : String) = "view_name" := hfst
        exact absurd hfst2 (by decide)
      · rw [List.mem_singleton] at hkv2
        rw [hkv2] at hfst
        have hfst2 : ("field_name" : String) = "view_name" := hfst
        exact absurd hfst2 (by decide)

/-- Witness for C10: with `viewname`, `view_name` and the unrecognized
`bogus` all supplied, the factory still succeeds, drops `viewname`, keeps
the other keys, and `view_name` keeps its own value `"b"`. -/
theorem factory_viewname_unchecked_witness :
    ("viewname" ∈ dictKeys [("viewname", "a"), ("view_name", "b"), ("bogus", "c")])
    ∧ ((AutocompleteFilterFactory "t" "f"
          [("viewname", "a"), ("view_name", "b"), ("bogus", "c")]).2.isOk = true
      ∧ "viewname" ∉ dictKeys (generated_class (AutocompleteFilterFactory "t" "f"
          [("viewname", "a"), ("view_name", "b"), ("bogus", "c")]))
      ∧ ((dictKeys [("viewname", "a"), ("view_name", "b"), ("bogus", "c")]).all
          (fun k => k == "viewname"
            || (dictKeys (generated_class (AutocompleteFilterFactory "t" "f"
                [("viewname", "a"), ("view_name", "b"), ("bogus", "c")]))).contains k))
        = true
      ∧ ((dictGet [("viewname", "a"), ("view_name", "b"), ("bogus", "c")] "view_name").isSome = true →
          dictGet (generated_class (AutocompleteFilterFactory "t" "f"
              [("viewname", "a"), ("view_name", "b"), ("bogus", "c")])) "view_name"
            = dictGet [("viewname", "a"), ("view_name", "b"), ("bogus", "c")] "view_name")) :=
  ⟨by decide,
    factory_viewname_unchecked "t" "f"
      [("viewname", "a"), ("view_name", "b"), ("bogus", "c")] (by decide)⟩
